import Mathlib

/-!
Shallow embedding of the `ovation` clap-switch library.

Embedded sources:
* `src/utils/audio-utils.js` — `calculateRMS`, `amplitudeToDecibels`,
  `calculateDominantFrequency`, `getAttackTime`;
* `src/audio-processor.js` — the `AudioProcessor` per-frame analysis loop
  (`_startAnalysis`) and `start`, and the `ClapSwitch` pattern state machine
  (`constructor`, the `clap` listener, `_handleClap` and its timeout callback).

Sample values, spectrum magnitudes, thresholds, frequencies and timestamps are
modelled as exact rationals (`ℚ`); JavaScript numbers are treated as ideal
arithmetic.  The two transcendental functions of the source, `Math.sqrt`
(inside `calculateRMS`) and `Math.log10` (inside `amplitudeToDecibels`), have
no rational values; the development therefore carries the *square* of the RMS
(`calculateRMSsq`, exactly the quantity `sum / buffer.length` the source takes
the square root of) and compares squares where the source compares the
root, and the per-frame analysis step receives the already-computed `rms` and
`db` feature values as inputs, exactly as the loop body uses them.
-/

namespace Ovation

/-! ### audio-utils.js -/

/-- `Math.abs` on the rational sample domain. -/
def jsAbs (x : ℚ) : ℚ := if x < 0 then -x else x

/-- Square of `calculateRMS` (audio-utils.js lines 70-76): the source returns
`Math.sqrt(sum / buffer.length)` where `sum` accumulates `buffer[i]*buffer[i]`.
Since `√` is monotone and not rational-valued, the development works with the
radicand: `rms > t ↔ calculateRMSsq > t²` for `t ≥ 0`. -/
def calculateRMSsq (buffer : List ℚ) : ℚ :=
  (buffer.map (fun x => x * x)).sum / (buffer.length : ℚ)

/-- The scanning loop of `calculateDominantFrequency` (audio-utils.js lines
99-107): `maxIndex`/`maxValue` start at `(0, 0)` and are replaced only on a
strictly greater magnitude.  The accumulator carries the running index. -/
def domFreqAux : List ℚ → Nat → Nat × ℚ → Nat × ℚ
  | [], _, acc => acc
  | x :: rest, i, acc =>
      domFreqAux rest (i + 1) (if x > acc.2 then (i, x) else acc)

/-- `calculateDominantFrequency` (audio-utils.js lines 98-111): scan for the
bin with the largest magnitude (starting from `maxValue = 0`), then convert
the bin index to Hz via `maxIndex * sampleRate / fftSize`. -/
def calculateDominantFrequency (frequencyData : List ℚ) (sampleRate fftSize : ℚ) : ℚ :=
  ((domFreqAux frequencyData 0 (0, 0)).1 : ℚ) * sampleRate / fftSize

/-- The peak-finding loop of `getAttackTime` (audio-utils.js lines 121-130):
`peakIndex`/`peakValue` start at `(0, 0)` and are replaced whenever
`Math.abs(buffer[i])` is strictly greater than the running `peakValue`. -/
def peakAux : List ℚ → Nat → Nat × ℚ → Nat × ℚ
  | [], _, acc => acc
  | x :: rest, i, acc =>
      peakAux rest (i + 1) (if jsAbs x > acc.2 then (i, jsAbs x) else acc)

/-- `(peakIndex, peakValue)` of a buffer, as computed by `getAttackTime`. -/
def peakScan (buffer : List ℚ) : Nat × ℚ :=
  peakAux buffer 0 (0, 0)

/-- The backward walk of `getAttackTime` (audio-utils.js lines 139-143):
`while (attackIndex > 0 && Math.abs(buffer[attackIndex]) > startThreshold)
attackIndex--`.  The argument is the current `attackIndex`; out-of-range reads
(never reached from a valid peak index) default to `0` like a missing entry. -/
def attackWalk (buffer : List ℚ) (startThreshold : ℚ) : Nat → Nat
  | 0 => 0
  | i + 1 =>
      if jsAbs (buffer.getD (i + 1) 0) > startThreshold then attackWalk buffer startThreshold i
      else i + 1

/-- `getAttackTime` (audio-utils.js lines 119-146): find the peak; if
`peakValue < threshold` return the sentinel `-1`; otherwise walk backward from
`peakIndex` while the absolute sample exceeds `startThreshold = threshold * 0.1`
and return `peakIndex - attackIndex` (in samples). -/
def getAttackTime (buffer : List ℚ) (threshold : ℚ) : ℤ :=
  let p := peakScan buffer
  if p.2 < threshold then -1
  else (p.1 : ℤ) - (attackWalk buffer (threshold * (1 / 10)) p.1 : ℤ)

/-! ### AudioProcessor (audio-processor.js lines 14-235) -/

/-- The detector configuration consumed by the analysis loop
(`AudioProcessor.options`, audio-processor.js lines 27-35). -/
structure DetectorOptions where
  threshold : ℚ
  minDecibels : ℚ
  freqLow : ℚ
  freqHigh : ℚ
  minAttackTime : ℤ
  maxAttackTime : ℤ
deriving DecidableEq

/-- The defaults of `AudioProcessor.constructor`. -/
def defaultDetectorOptions : DetectorOptions :=
  ⟨3 / 10, -45, 2000, 4000, 5, 20⟩

/-- One analysis tick's inputs: the time-domain frame, the frequency-domain
snapshot, the loudness features `rms = calculateRMS(timeData)` and
`db = amplitudeToDecibels(rms)` (carried as values because `√`/`log₁₀` are
irrational; the loop body only ever compares them), and the current
`Date.now()` timestamp. -/
structure FrameObs where
  timeData : List ℚ
  freqData : List ℚ
  rms : ℚ
  db : ℚ
  now : ℚ

/-- The body of `analyze` in `AudioProcessor._startAnalysis` (audio-processor.js
lines 160-219), as a function of the mutable `_lastClapTime` state: gate on
`db > minDecibels && rms > threshold`; then classify by frequency range, attack
time, and cooldown; on a positive classification update `_lastClapTime` and
emit a clap.  Returns `(new _lastClapTime, clap emitted?)`. -/
def analyzeStep (opts : DetectorOptions) (cooldownPeriod sampleRate fftSize : ℚ)
    (lastClapTime : ℚ) (obs : FrameObs) : ℚ × Bool :=
  if obs.db > opts.minDecibels ∧ obs.rms > opts.threshold then
    let attackTime := getAttackTime obs.timeData opts.threshold
    let dominantFreq := calculateDominantFrequency obs.freqData sampleRate fftSize
    if (opts.freqLow ≤ dominantFreq ∧ dominantFreq ≤ opts.freqHigh) ∧
        (opts.minAttackTime ≤ attackTime ∧ attackTime ≤ opts.maxAttackTime) ∧
        obs.now - lastClapTime > cooldownPeriod then
      (obs.now, true)
    else (lastClapTime, false)
  else (lastClapTime, false)

/-- Iterated `analyzeStep` over a sequence of ticks (the
`requestAnimationFrame` loop), collecting the per-frame clap decisions. -/
def analyzeRun (opts : DetectorOptions) (cooldownPeriod sampleRate fftSize : ℚ) :
    ℚ → List FrameObs → ℚ × List Bool
  | t, [] => (t, [])
  | t, o :: rest =>
      let r := analyzeStep opts cooldownPeriod sampleRate fftSize t o
      let rr := analyzeRun opts cooldownPeriod sampleRate fftSize r.1 rest
      (rr.1, r.2 :: rr.2)

/-- Qualification of one frame by everything but the cooldown: the amplitude
gate, the frequency-range check and the attack-time check of `analyze`
(audio-processor.js lines 171-191), exactly as the loop computes them. -/
def qualifies (opts : DetectorOptions) (sampleRate fftSize : ℚ) (obs : FrameObs) : Prop :=
  (obs.db > opts.minDecibels ∧ obs.rms > opts.threshold) ∧
  (opts.freqLow ≤ calculateDominantFrequency obs.freqData sampleRate fftSize ∧
    calculateDominantFrequency obs.freqData sampleRate fftSize ≤ opts.freqHigh) ∧
  (opts.minAttackTime ≤ getAttackTime obs.timeData opts.threshold ∧
    getAttackTime obs.timeData opts.threshold ≤ opts.maxAttackTime)

instance (opts : DetectorOptions) (sampleRate fftSize : ℚ) (obs : FrameObs) :
    Decidable (qualifies opts sampleRate fftSize obs) := by
  unfold qualifies; infer_instance

/-- Resource/listening flags of one `AudioProcessor` instance: `_isListening`,
`_audioContext`, `_mediaStream`, `_microphone`, `_analyser`,
`_animationFrame` (audio-processor.js lines 37-51), each tracked as
"currently held / active". -/
structure ProcState where
  isListening : Bool
  audioContext : Bool
  mediaStream : Bool
  microphone : Bool
  analyser : Bool
  animationFrame : Bool
deriving DecidableEq

/-- The state set up by `AudioProcessor.constructor`: idle, nothing held. -/
def initProcState : ProcState :=
  ⟨false, false, false, false, false, false⟩

/-- `AudioProcessor.start` (audio-processor.js lines 58-91), with the
microphone-permission outcome as input.  The context is created lazily
(`if (!this._audioContext)`); a denied `requestMicrophoneAccess` throws, and
the `catch` block only re-emits and rethrows — it performs no cleanup, so the
thrown path carries the state exactly as it was at the throw point
(`Except.error`).  On success `_setupAudioProcessing` connects the microphone
and analyser and the analysis tick is scheduled.  (The `AudioContext.resume`
suspension path is elided: the model covers the permission-denial failure the
spec names.) -/
def procStart (micGranted : Bool) (s : ProcState) : Except ProcState ProcState :=
  if s.isListening then Except.ok s
  else
    let s1 := if ¬ s.audioContext then { s with audioContext := true } else s
    if ¬ micGranted then Except.error s1
    else
      let s2 := { s1 with mediaStream := true }
      let s3 := { s2 with microphone := true, analyser := true }
      Except.ok { s3 with isListening := true, animationFrame := true }

/-! ### ClapSwitch (audio-processor.js lines 244-441) -/

/-- The pattern-machine configuration consumed by `_handleClap`. -/
structure PatternOptions where
  requiredClaps : Nat
  clapTimeout : ℚ
deriving DecidableEq

/-- Notifications emitted by `ClapSwitch` while folding claps into toggles:
`clap` (running count), `pattern` (completed count), `pattern-canceled`
(partial count), and the `toggle` forwarded from the state manager. -/
inductive Outcome
  | clap (count : Nat)
  | pattern (count : Nat)
  | patternCanceled (count : Nat)
  | toggle
deriving DecidableEq

/-- The mutable pattern state `_clapCount` / `_clapTimer` (audio-processor.js
lines 298-299).  `clapTimer` is the *pending* deadline timestamp: `some d`
while a `setTimeout` scheduled to fire at `d` is outstanding, `none` once it
has been cleared or has fired (the JS field then holds only a spent id). -/
structure SwitchState where
  clapCount : Nat
  clapTimer : Option ℚ
deriving DecidableEq

/-- `ClapSwitch._handleClap` (audio-processor.js lines 411-440) at wall-clock
time `now`: increment `_clapCount`, clear any pending timer; on
`_clapCount >= requiredClaps` emit `pattern` with the count, call
`stateManager.toggle()` (whose `toggle` event the switch re-emits) and reset;
otherwise schedule the cancellation timeout for `now + clapTimeout`. -/
def handleClap (opts : PatternOptions) (now : ℚ) (s : SwitchState) :
    SwitchState × List Outcome :=
  let count := s.clapCount + 1
  if opts.requiredClaps ≤ count then
    (⟨0, none⟩, [Outcome.pattern count, Outcome.toggle])
  else
    (⟨count, some (now + opts.clapTimeout)⟩, [])

/-- The `clap` listener registered in `_setupEventListeners` (audio-processor.js
lines 401-404): emit `clap` with `_clapCount + 1`, then run `_handleClap`. -/
def onClap (opts : PatternOptions) (now : ℚ) (s : SwitchState) :
    SwitchState × List Outcome :=
  let r := handleClap opts now s
  (r.1, Outcome.clap (s.clapCount + 1) :: r.2)

/-- The timeout callback scheduled by `_handleClap` (audio-processor.js lines
431-438), firing only when a deadline is actually pending: emit
`pattern-canceled` with the partial count if it is positive, and reset the
count; the timer is spent. -/
def onTimeout (s : SwitchState) : SwitchState × List Outcome :=
  match s.clapTimer with
  | none => (s, [])
  | some _ =>
      if 0 < s.clapCount then (⟨0, none⟩, [Outcome.patternCanceled s.clapCount])
      else (⟨0, none⟩, [])

/-- The two stimuli the pattern machine reacts to. -/
inductive SwitchEvent
  | clapAt (now : ℚ)
  | timeoutFire

/-- One transition of the pattern machine. -/
def switchStep (opts : PatternOptions) (s : SwitchState) :
    SwitchEvent → SwitchState × List Outcome
  | SwitchEvent.clapAt now => onClap opts now s
  | SwitchEvent.timeoutFire => onTimeout s

/-- A run of the pattern machine, concatenating emitted outcomes. -/
def switchRun (opts : PatternOptions) : SwitchState → List SwitchEvent → SwitchState × List Outcome
  | s, [] => (s, [])
  | s, e :: rest =>
      let r := switchStep opts s e
      let rr := switchRun opts r.1 rest
      (rr.1, r.2 ++ rr.2)

/-- A sequence of clap events at the given timestamps. -/
def clapsAt (times : List ℚ) : List SwitchEvent :=
  times.map SwitchEvent.clapAt

/-- States reachable from the freshly constructed machine
(`_clapCount = 0`, no timer) by any sequence of claps and timeout firings. -/
inductive SwitchReachable (opts : PatternOptions) : SwitchState → Prop
  | init : SwitchReachable opts ⟨0, none⟩
  | step (s : SwitchState) (e : SwitchEvent) :
      SwitchReachable opts s → SwitchReachable opts (switchStep opts s e).1

/-- Recognizer for `pattern` outcomes. -/
def isPatternOutcome : Outcome → Bool
  | Outcome.pattern _ => true
  | _ => false

/-- Recognizer for `toggle` outcomes. -/
def isToggleOutcome : Outcome → Bool
  | Outcome.toggle => true
  | _ => false

/-- Recognizer for `pattern-canceled` outcomes. -/
def isCanceledOutcome : Outcome → Bool
  | Outcome.patternCanceled _ => true
  | _ => false

/-- The `ClapSwitch` constructor inputs that feed the pattern machine and the
detector: a field is `none` when the key is absent from the `options` object. -/
structure SwitchOptionsInput where
  requiredClaps : Option Nat
  clapTimeout : Option ℚ
  clapInterval : Option ℚ
  threshold : Option ℚ
  minDecibels : Option ℚ
  freqLow : Option ℚ
  freqHigh : Option ℚ

/-- The merged `this.options` of `ClapSwitch` (numeric fields). -/
structure SwitchOptions where
  requiredClaps : Nat
  clapTimeout : ℚ
  clapInterval : ℚ
  threshold : ℚ
  minDecibels : ℚ
  freqLow : ℚ
  freqHigh : ℚ
deriving DecidableEq

/-- The option merge of `ClapSwitch.constructor` (audio-processor.js lines
260-271): `{ ...defaults, ...options }` — a provided key wins, a missing key
falls back to the default; no field is range-checked. -/
def mkSwitchOptions (o : SwitchOptionsInput) : SwitchOptions :=
  ⟨o.requiredClaps.getD 2, o.clapTimeout.getD 1000, o.clapInterval.getD 500,
    o.threshold.getD (3 / 10), o.minDecibels.getD (-45),
    o.freqLow.getD 2000, o.freqHigh.getD 4000⟩

/-- `ClapSwitch.constructor` (audio-processor.js lines 257-310) in a
Web-Audio-capable environment: merge the options and initialize
`_clapCount = 0`, `_clapTimer = null`.  There is no validation step and no
failure path for any option values. -/
def mkClapSwitch (o : SwitchOptionsInput) : SwitchOptions × SwitchState :=
  (mkSwitchOptions o, ⟨0, none⟩)

/-- The pattern-machine view of merged `ClapSwitch` options. -/
def toPatternOptions (o : SwitchOptions) : PatternOptions :=
  ⟨o.requiredClaps, o.clapTimeout⟩

/-- The deadline pending after a sequence of claps at the given times: the
previous deadline if no clap arrived, else `clapTimeout` after the last one. -/
def pendingAfter (tmr : Option ℚ) (timeout : ℚ) (times : List ℚ) : Option ℚ :=
  times.getLast?.elim tmr (fun t => some (t + timeout))

/-! ### Helper lemmas -/

theorem jsAbs_nonneg (x : ℚ) : 0 ≤ jsAbs x := by
  unfold jsAbs; split_ifs with h <;> linarith

theorem le_jsAbs_self (x : ℚ) : x ≤ jsAbs x := by
  unfold jsAbs; split_ifs with h <;> linarith

theorem jsAbs_mul_self (x : ℚ) : jsAbs x * jsAbs x = x * x := by
  unfold jsAbs; split_ifs with h <;> ring

theorem peakAux_snd_mono (l : List ℚ) (i : Nat) (acc : Nat × ℚ) :
    acc.2 ≤ (peakAux l i acc).2 := by
  induction l generalizing i acc with
  | nil => simp [peakAux]
  | cons x rest ih =>
      simp only [peakAux]
      refine le_trans ?_ (ih (i + 1) _)
      split_ifs with h
      · exact le_of_lt h
      · exact le_refl _

theorem peakAux_ge_mem (l : List ℚ) (i : Nat) (acc : Nat × ℚ) :
    ∀ x ∈ l, jsAbs x ≤ (peakAux l i acc).2 := by
  induction l generalizing i acc with
  | nil => intro x hx; cases hx
  | cons y rest ih =>
      intro x hx
      rcases List.mem_cons.mp hx with hxy | hxr
      · subst hxy
        simp only [peakAux]
        refine le_trans ?_ (peakAux_snd_mono rest (i + 1) _)
        split_ifs with h
        · exact le_refl _
        · exact le_of_not_lt h
      · simp only [peakAux]
        exact ih (i + 1) _ x hxr

theorem peakAux_attained (l : List ℚ) (i : Nat) (acc : Nat × ℚ) :
    peakAux l i acc = acc ∨
      ∃ j, j < l.length ∧ peakAux l i acc = (i + j, jsAbs (l.getD j 0)) := by
  induction l generalizing i acc with
  | nil => exact Or.inl rfl
  | cons x rest ih =>
      simp only [peakAux]
      split_ifs with h
      · rcases ih (i + 1) (i, jsAbs x) with heq | ⟨j, hj, heq⟩
        · exact Or.inr ⟨0, by simp, by simp [heq]⟩
        · exact Or.inr ⟨j + 1, by simpa using hj,
            by simpa [Nat.add_comm, Nat.add_assoc, Nat.add_left_comm] using heq⟩
      · rcases ih (i + 1) acc with heq | ⟨j, hj, heq⟩
        · exact Or.inl heq
        · exact Or.inr ⟨j + 1, by simpa using hj,
            by simpa [Nat.add_comm, Nat.add_assoc, Nat.add_left_comm] using heq⟩

theorem peakScan_snd_nonneg (buffer : List ℚ) : 0 ≤ (peakScan buffer).2 :=
  peakAux_snd_mono buffer 0 (0, 0)

theorem peakScan_ge_mem (buffer : List ℚ) : ∀ x ∈ buffer, jsAbs x ≤ (peakScan buffer).2 :=
  peakAux_ge_mem buffer 0 (0, 0)

theorem peakScan_attained (buffer : List ℚ) (hne : buffer ≠ []) :
    jsAbs (buffer.getD (peakScan buffer).1 0) = (peakScan buffer).2 := by
  rcases peakAux_attained buffer 0 (0, 0) with heq | ⟨j, hj, heq⟩
  · have hmem : buffer.getD 0 0 ∈ buffer := by
      cases buffer with
      | nil => exact absurd rfl hne
      | cons y rest => simp
    have hle := peakScan_ge_mem buffer _ hmem
    have : (peakScan buffer).2 = 0 := by unfold peakScan; rw [heq]
    unfold peakScan at hle ⊢
    rw [heq] at hle ⊢
    simp only at hle ⊢
    have := jsAbs_nonneg (buffer.getD 0 0)
    linarith
  · unfold peakScan
    rw [heq]
    simp

theorem attackWalk_le (buffer : List ℚ) (st : ℚ) (n : Nat) :
    attackWalk buffer st n ≤ n := by
  induction n with
  | zero => simp [attackWalk]
  | succ m ih =>
      simp only [attackWalk]
      split_ifs with h
      · exact le_trans ih (Nat.le_succ m)
      · exact le_refl _

theorem attackWalk_stop (buffer : List ℚ) (st : ℚ) (n : Nat) :
    attackWalk buffer st n = 0 ∨
      ¬ (jsAbs (buffer.getD (attackWalk buffer st n) 0) > st) := by
  induction n with
  | zero => exact Or.inl rfl
  | succ m ih =>
      simp only [attackWalk]
      split_ifs with h
      · exact ih
      · exact Or.inr h

theorem attackWalk_run (buffer : List ℚ) (st : ℚ) (n : Nat) :
    ∀ k, attackWalk buffer st n < k → k ≤ n → jsAbs (buffer.getD k 0) > st := by
  induction n with
  | zero => intro k h1 h2; omega
  | succ m ih =>
      intro k h1 h2
      simp only [attackWalk] at h1
      split_ifs at h1 with h
      · rcases Nat.lt_or_ge k (m + 1) with hk | hk
        · exact ih k h1 (by omega)
        · have : k = m + 1 := by omega
          simpa [this] using h
      · omega

theorem sum_sq_le_card_mul (l : List ℚ) (B : ℚ) (h : ∀ x ∈ l, x * x ≤ B) :
    (l.map (fun x => x * x)).sum ≤ (l.length : ℚ) * B := by
  induction l with
  | nil => simp
  | cons x rest ih =>
      have hx := h x (List.mem_cons_self x rest)
      have hr := ih (fun y hy => h y (List.mem_cons_of_mem x hy))
      simp only [List.map_cons, List.sum_cons, List.length_cons]
      push_cast
      linarith

theorem filter_of_all_claps (outs : List Outcome) (h : ∀ o ∈ outs, ∃ n, o = Outcome.clap n) :
    outs.filter isPatternOutcome = [] ∧ outs.filter isToggleOutcome = [] ∧
      outs.filter isCanceledOutcome = [] := by
  induction outs with
  | nil => simp
  | cons o rest ih =>
      obtain ⟨n, rfl⟩ := h o (List.mem_cons_self o rest)
      have hr := ih (fun o ho => h o (List.mem_cons_of_mem _ ho))
      simpa [List.filter, isPatternOutcome, isToggleOutcome, isCanceledOutcome] using hr

theorem getLast?_cons_isSome (y : ℚ) (ys : List ℚ) : ∃ a, (y :: ys).getLast? = some a := by
  induction ys generalizing y with
  | nil => exact ⟨y, rfl⟩
  | cons z zs ih =>
      obtain ⟨a, ha⟩ := ih z
      exact ⟨a, by rw [List.getLast?_cons_cons]; exact ha⟩

theorem pendingAfter_cons (tmr : Option ℚ) (timeout t : ℚ) (rest : List ℚ) :
    pendingAfter tmr timeout (t :: rest) = pendingAfter (some (t + timeout)) timeout rest := by
  cases rest with
  | nil => simp [pendingAfter]
  | cons y ys =>
      obtain ⟨a, ha⟩ := getLast?_cons_isSome y ys
      simp [pendingAfter, List.getLast?_cons_cons, ha]

theorem switchRun_append (opts : PatternOptions) (s : SwitchState)
    (evs1 evs2 : List SwitchEvent) :
    switchRun opts s (evs1 ++ evs2) =
      ((switchRun opts (switchRun opts s evs1).1 evs2).1,
       (switchRun opts s evs1).2 ++ (switchRun opts (switchRun opts s evs1).1 evs2).2) := by
  induction evs1 generalizing s with
  | nil => simp [switchRun]
  | cons e rest ih =>
      simp only [List.cons_append, switchRun, List.append_eq]
      rw [ih]
      simp [List.append_assoc]

theorem switchRun_claps_partial (opts : PatternOptions) (times : List ℚ)
    (c : Nat) (tmr : Option ℚ) (h : c + times.length < opts.requiredClaps) :
    (switchRun opts ⟨c, tmr⟩ (clapsAt times)).1 =
        ⟨c + times.length, pendingAfter tmr opts.clapTimeout times⟩ ∧
      ∀ o ∈ (switchRun opts ⟨c, tmr⟩ (clapsAt times)).2, ∃ n, o = Outcome.clap n := by
  induction times generalizing c tmr with
  | nil => simp [clapsAt, switchRun, pendingAfter]
  | cons t rest ih =>
      have hlt : ¬ opts.requiredClaps ≤ c + 1 := by
        simp only [List.length_cons] at h; omega
      have hstep : switchStep opts ⟨c, tmr⟩ (SwitchEvent.clapAt t) =
          (⟨c + 1, some (t + opts.clapTimeout)⟩, [Outcome.clap (c + 1)]) := by
        simp [switchStep, onClap, handleClap, hlt]
      have hrest : (c + 1) + rest.length < opts.requiredClaps := by
        simp only [List.length_cons] at h; omega
      have ihr := ih (c + 1) (some (t + opts.clapTimeout)) hrest
      constructor
      · simp only [clapsAt, List.map_cons, switchRun, hstep]
        rw [show (clapsAt rest = rest.map SwitchEvent.clapAt) from rfl] at ihr
        rw [ihr.1, pendingAfter_cons]
        simp only [List.length_cons]
        congr 1
        omega
      · intro o ho
        simp only [clapsAt, List.map_cons, switchRun, hstep] at ho
        rcases List.mem_append.mp ho with h1 | h2
        · rcases List.mem_singleton.mp h1 with rfl
          exact ⟨c + 1, rfl⟩
        · exact ihr.2 o h2

/-! ### Claim theorems -/

set_option maxRecDepth 20000

/-- C5: Amplitude gate — a frame whose RMS is at most `threshold` or whose
decibel value is at most `minDecibels` produces no clap and leaves
`_lastClapTime` unchanged, and the result does not depend on the frame's
samples or spectrum at all (no attack-time or spectrum work is observable):
the analysis step returns the same silent skip for every `timeData`/`freqData`
content. -/
theorem c5_amplitude_gate (opts : DetectorOptions) (cooldownPeriod sampleRate fftSize t : ℚ)
    (obs : FrameObs) (h : obs.rms ≤ opts.threshold ∨ obs.db ≤ opts.minDecibels) :
    analyzeStep opts cooldownPeriod sampleRate fftSize t obs = (t, false) ∧
      ∀ td fd, analyzeStep opts cooldownPeriod sampleRate fftSize t
          { obs with timeData := td, freqData := fd } = (t, false) := by
  have hgate : ¬ (obs.db > opts.minDecibels ∧ obs.rms > opts.threshold) := by
    rcases h with h | h
    · intro hcon
      linarith [hcon.2]
    · intro hcon
      linarith [hcon.1]
  refine ⟨?_, ?_⟩
  · simp only [analyzeStep]
    rw [if_neg hgate]
  · intro td fd
    simp only [analyzeStep]
    rw [if_neg hgate]

/-- Witness for C5: a quiet frame (`rms = 1/10 ≤ 3/10`) is skipped, even when
the substituted frame content is a loud, clap-shaped transient. -/
theorem c5_amplitude_gate_witness :
    analyzeStep defaultDetectorOptions 300 48000 1024 0
        ⟨[1 / 2], [5], 1 / 10, -20, 50⟩ = (0, false) ∧
      analyzeStep defaultDetectorOptions 300 48000 1024 0
        { (⟨[1 / 2], [5], 1 / 10, -20, 50⟩ : FrameObs) with
            timeData := List.replicate 23 0 ++ List.replicate 7 (1 / 2) ++ [9 / 10],
            freqData := List.replicate 64 1 ++ [5] } = (0, false) := by
  have h := c5_amplitude_gate defaultDetectorOptions 300 48000 1024 0
    ⟨[1 / 2], [5], 1 / 10, -20, 50⟩
    (Or.inl (by norm_num [defaultDetectorOptions]))
  exact ⟨h.1, h.2 _ _⟩

/-- C4: Cooldown — with `_lastClapTime = t`, (a) every frame of a run whose
timestamps stay within `t + cooldown` is silent and leaves the timestamp at
`t`, even if the frame qualifies on amplitude, attack and frequency; (b) a
qualifying frame strictly after the cooldown claps and moves the timestamp;
(c) hence two qualifying transients less than `cooldown` apart yield exactly
one clap, and spaced more than `cooldown` apart yield two. -/
theorem c4_cooldown (opts : DetectorOptions) (cooldownPeriod sampleRate fftSize : ℚ) :
    (∀ (t : ℚ) (obss : List FrameObs), (∀ o ∈ obss, o.now - t ≤ cooldownPeriod) →
        analyzeRun opts cooldownPeriod sampleRate fftSize t obss =
          (t, obss.map fun _ => false)) ∧
      (∀ (t : ℚ) (o : FrameObs), qualifies opts sampleRate fftSize o →
        o.now - t > cooldownPeriod →
        analyzeStep opts cooldownPeriod sampleRate fftSize t o = (o.now, true)) ∧
      (∀ (t : ℚ) (o1 o2 : FrameObs), qualifies opts sampleRate fftSize o1 →
        qualifies opts sampleRate fftSize o2 → o1.now - t > cooldownPeriod →
        (o2.now - o1.now ≤ cooldownPeriod →
          (analyzeRun opts cooldownPeriod sampleRate fftSize t [o1, o2]).2 = [true, false]) ∧
        (o2.now - o1.now > cooldownPeriod →
          (analyzeRun opts cooldownPeriod sampleRate fftSize t [o1, o2]).2 = [true, true])) := by
  have hstep0 : ∀ (t : ℚ) (o : FrameObs), o.now - t ≤ cooldownPeriod →
      analyzeStep opts cooldownPeriod sampleRate fftSize t o = (t, false) := by
    intro t o hle
    simp only [analyzeStep]
    split_ifs with h1 h2
    · exact absurd h2.2.2 (by linarith)
    · rfl
    · rfl
  have hstep1 : ∀ (t : ℚ) (o : FrameObs), qualifies opts sampleRate fftSize o →
      o.now - t > cooldownPeriod →
      analyzeStep opts cooldownPeriod sampleRate fftSize t o = (o.now, true) := by
    intro t o hq hgt
    obtain ⟨hg, hf, ha⟩ := hq
    simp only [analyzeStep]
    rw [if_pos hg, if_pos ⟨hf, ha, hgt⟩]
  refine ⟨?_, hstep1, ?_⟩
  · intro t obss h
    induction obss with
    | nil => simp [analyzeRun]
    | cons o rest ih =>
        have h1 := hstep0 t o (h o (List.mem_cons_self o rest))
        have h2 := ih (fun o' ho' => h o' (List.mem_cons_of_mem _ ho'))
        simp only [analyzeRun, h1, h2, List.map_cons]
  · intro t o1 o2 hq1 hq2 hgt
    constructor
    · intro hle
      simp only [analyzeRun, hstep1 t o1 hq1 hgt]
      simp only [analyzeRun, hstep0 o1.now o2 hle]
    · intro hgt2
      simp only [analyzeRun, hstep1 t o1 hq1 hgt]
      simp only [analyzeRun, hstep1 o1.now o2 hq2 hgt2]

/-- Witness for C4 at Scenario A-shaped frames (attack width 8, dominant bin
64 → 3000 Hz at 48 kHz / fft 1024): claps at `t = 400` then `t = 600`
(200 ms apart, within the 300 ms cooldown) give one event; at `t = 400` then
`t = 800` give two. -/
theorem c4_cooldown_witness :
    (analyzeRun defaultDetectorOptions 300 48000 1024 0
        [⟨List.replicate 23 0 ++ List.replicate 7 (1 / 2) ++ [9 / 10],
            List.replicate 64 1 ++ [5], 1 / 2, -6, 400⟩,
          ⟨List.replicate 23 0 ++ List.replicate 7 (1 / 2) ++ [9 / 10],
            List.replicate 64 1 ++ [5], 1 / 2, -6, 600⟩]).2 = [true, false] ∧
      (analyzeRun defaultDetectorOptions 300 48000 1024 0
        [⟨List.replicate 23 0 ++ List.replicate 7 (1 / 2) ++ [9 / 10],
            List.replicate 64 1 ++ [5], 1 / 2, -6, 400⟩,
          ⟨List.replicate 23 0 ++ List.replicate 7 (1 / 2) ++ [9 / 10],
            List.replicate 64 1 ++ [5], 1 / 2, -6, 800⟩]).2 = [true, true] := by
  have hq : ∀ now : ℚ, qualifies defaultDetectorOptions 48000 1024
      ⟨List.replicate 23 0 ++ List.replicate 7 (1 / 2) ++ [9 / 10],
        List.replicate 64 1 ++ [5], 1 / 2, -6, now⟩ := by
    intro now
    refine ⟨by norm_num [defaultDetectorOptions], ?_, ?_⟩
    · norm_num [defaultDetectorOptions, calculateDominantFrequency, domFreqAux,
        List.replicate]
    · norm_num [defaultDetectorOptions, getAttackTime, peakScan, peakAux, attackWalk,
        jsAbs, List.replicate]
  have h1 := (c4_cooldown defaultDetectorOptions 300 48000 1024).2.2 0
    ⟨List.replicate 23 0 ++ List.replicate 7 (1 / 2) ++ [9 / 10],
      List.replicate 64 1 ++ [5], 1 / 2, -6, 400⟩
    ⟨List.replicate 23 0 ++ List.replicate 7 (1 / 2) ++ [9 / 10],
      List.replicate 64 1 ++ [5], 1 / 2, -6, 600⟩
    (hq 400) (hq 600) (by norm_num)
  have h2 := (c4_cooldown defaultDetectorOptions 300 48000 1024).2.2 0
    ⟨List.replicate 23 0 ++ List.replicate 7 (1 / 2) ++ [9 / 10],
      List.replicate 64 1 ++ [5], 1 / 2, -6, 400⟩
    ⟨List.replicate 23 0 ++ List.replicate 7 (1 / 2) ++ [9 / 10],
      List.replicate 64 1 ++ [5], 1 / 2, -6, 800⟩
    (hq 400) (hq 800) (by norm_num)
  exact ⟨h1.1 (by norm_num), h2.2 (by norm_num)⟩

/-- C3 (refuted — code bug): on an all-negative spectrum the source does not
return a maximal bin's frequency.  At `[-80, -20]` (sample rate 44100, fft
size 1024) it returns `0` Hz, i.e. bin 0, although bin 1 has strictly greater
magnitude and its frequency `1 * 44100 / 1024` is nonzero: the scan starts
from `maxValue = 0`, which no negative (dB-scale) magnitude ever exceeds.
The repo's own unit test ("should identify the dominant frequency bin",
audio-utils.test.js) feeds exactly such an all-negative spectrum — a peak of
`-20` among `-80` — and expects the peak bin's frequency back. -/
theorem c3_dominant_frequency_bug :
    calculateDominantFrequency [-80, -20] 44100 1024 = 0 ∧
      (domFreqAux [-80, -20] 0 (0, 0)).1 = 0 ∧
      ([-80, -20] : List ℚ).getD 0 0 < ([-80, -20] : List ℚ).getD 1 0 ∧
      (1 : ℚ) * 44100 / 1024 ≠ 0 := by
  refine ⟨?_, ?_, ?_, ?_⟩ <;>
    norm_num [calculateDominantFrequency, domFreqAux, List.getD]

/-- C6: Attack-time algorithm — `getAttackTime` finds the peak
`(peak_index, peak_value)` of the buffer (`peak_value` dominates every
absolute sample and is attained at `peak_index` for non-empty buffers);
when `peak_value < threshold` it returns the sentinel `-1`; otherwise it
returns `peak_index - j` where `j` is the index reached from `peak_index` by
walking backward while the absolute sample exceeds `threshold * 0.1`,
stopping at index 0 at the latest. -/
theorem c6_attack_time (buffer : List ℚ) (threshold : ℚ) :
    (∀ x ∈ buffer, jsAbs x ≤ (peakScan buffer).2) ∧
      (buffer ≠ [] → jsAbs (buffer.getD (peakScan buffer).1 0) = (peakScan buffer).2) ∧
      ((peakScan buffer).2 < threshold → getAttackTime buffer threshold = -1) ∧
      (¬ (peakScan buffer).2 < threshold →
        ∃ j, j ≤ (peakScan buffer).1 ∧
          (j = 0 ∨ ¬ (jsAbs (buffer.getD j 0) > threshold * (1 / 10))) ∧
          (∀ k, j < k → k ≤ (peakScan buffer).1 →
            jsAbs (buffer.getD k 0) > threshold * (1 / 10)) ∧
          getAttackTime buffer threshold =
            ((peakScan buffer).1 : ℤ) - (j : ℤ)) := by
  refine ⟨peakScan_ge_mem buffer, peakScan_attained buffer, ?_, ?_⟩
  · intro h
    simp only [getAttackTime]
    rw [if_pos h]
  · intro h
    refine ⟨attackWalk buffer (threshold * (1 / 10)) (peakScan buffer).1,
      attackWalk_le _ _ _, attackWalk_stop _ _ _, attackWalk_run _ _ _, ?_⟩
    simp only [getAttackTime]
    rw [if_neg h]

/-- Witness for C6 on the buffer `[0, 1/2, 9/10, 0]` with threshold `3/10`:
the peak is attained, and the non-sentinel branch returns
`peak_index - final_index`. -/
theorem c6_attack_time_witness :
    jsAbs (([0, 1 / 2, 9 / 10, 0] : List ℚ).getD (peakScan [0, 1 / 2, 9 / 10, 0]).1 0) =
        (peakScan [0, 1 / 2, 9 / 10, 0]).2 ∧
      ∃ j, j ≤ (peakScan [0, 1 / 2, 9 / 10, 0]).1 ∧
        (j = 0 ∨ ¬ (jsAbs (([0, 1 / 2, 9 / 10, 0] : List ℚ).getD j 0) > 3 / 10 * (1 / 10))) ∧
        (∀ k, j < k → k ≤ (peakScan [0, 1 / 2, 9 / 10, 0]).1 →
          jsAbs (([0, 1 / 2, 9 / 10, 0] : List ℚ).getD k 0) > 3 / 10 * (1 / 10)) ∧
        getAttackTime [0, 1 / 2, 9 / 10, 0] (3 / 10) =
          ((peakScan [0, 1 / 2, 9 / 10, 0]).1 : ℤ) - (j : ℤ) := by
  have h := c6_attack_time [0, 1 / 2, 9 / 10, 0] (3 / 10)
  exact ⟨h.2.1 (by simp), h.2.2.2 (by norm_num [peakScan, peakAux, jsAbs])⟩

/-- C10: for every non-empty frame the maximal absolute sample dominates the
RMS, stated on the squared radicand (`rms = √(calculateRMSsq)`): every `q ≥ 0`
with `q² ≤ calculateRMSsq buffer` — i.e. every lower bound of the RMS — also
bounds `peak_value`; hence whenever the amplitude gate `rms > threshold ≥ 0`
holds (`threshold² < calculateRMSsq buffer`), `getAttackTime` does not return
the `-1` sentinel, so the classifier never compares `-1` with the attack-time
bounds. -/
theorem c10_gate_no_sentinel (buffer : List ℚ) (hne : buffer ≠ []) :
    (∀ q : ℚ, 0 ≤ q → q * q ≤ calculateRMSsq buffer → q ≤ (peakScan buffer).2) ∧
      (∀ t : ℚ, 0 ≤ t → t * t < calculateRMSsq buffer →
        getAttackTime buffer t ≠ -1) := by
  have hplen : 0 < (buffer.length : ℚ) := by
    have hz : buffer.length ≠ 0 := by
      simpa [List.length_eq_zero] using hne
    exact_mod_cast Nat.pos_of_ne_zero hz
  have hpn : 0 ≤ (peakScan buffer).2 := peakScan_snd_nonneg buffer
  have hbound : ∀ x ∈ buffer, x * x ≤ (peakScan buffer).2 * (peakScan buffer).2 := by
    intro x hx
    have h1 := peakScan_ge_mem buffer x hx
    have h2 := jsAbs_nonneg x
    have h3 := jsAbs_mul_self x
    nlinarith
  have hsum := sum_sq_le_card_mul buffer ((peakScan buffer).2 * (peakScan buffer).2) hbound
  have hrms : calculateRMSsq buffer ≤ (peakScan buffer).2 * (peakScan buffer).2 := by
    unfold calculateRMSsq
    rw [div_le_iff₀ hplen]
    nlinarith
  constructor
  · intro q hq hqle
    nlinarith
  · intro t ht htlt
    have htp : t ≤ (peakScan buffer).2 := by nlinarith
    have hwalk := attackWalk_le buffer (t * (1 / 10)) (peakScan buffer).1
    simp only [getAttackTime]
    rw [if_neg (not_lt.mpr htp)]
    intro hcon
    omega

/-- Witness for C10 on the frame `[1/2, 1/2]` (RMS exactly `1/2`) with the
default threshold `3/10`. -/
theorem c10_gate_no_sentinel_witness :
    (1 / 2 : ℚ) ≤ (peakScan [1 / 2, 1 / 2]).2 ∧
      getAttackTime [1 / 2, 1 / 2] (3 / 10) ≠ -1 := by
  have h := c10_gate_no_sentinel [1 / 2, 1 / 2] (by simp)
  exact ⟨h.1 (1 / 2) (by norm_num) (by norm_num [calculateRMSsq]),
    h.2 (3 / 10) (by norm_num) (by norm_num [calculateRMSsq])⟩

/-- C8 counterexample: out-of-range configuration values are not rejected at
construction.  `requiredClaps: 0` and the inverted range `[4000, 2000]` are
accepted verbatim into the merged options, and the component runs with them:
under `required_claps = 0` the very first clap already emits a completed
pattern. -/
theorem c8_counterexample :
    (mkClapSwitch ⟨some 0, none, none, none, none, none, none⟩).1.requiredClaps = 0 ∧
      (mkClapSwitch ⟨none, none, none, none, none, some 4000, some 2000⟩).1.freqLow = 4000 ∧
      (mkClapSwitch ⟨none, none, none, none, none, some 4000, some 2000⟩).1.freqHigh = 2000 ∧
      (switchStep
          (toPatternOptions (mkClapSwitch ⟨some 0, none, none, none, none, none, none⟩).1)
          (mkClapSwitch ⟨some 0, none, none, none, none, none, none⟩).2
          (SwitchEvent.clapAt 0)).2.filter isPatternOutcome = [Outcome.pattern 1] := by
  refine ⟨rfl, rfl, rfl, ?_⟩
  simp [mkClapSwitch, mkSwitchOptions, toPatternOptions, switchStep, onClap, handleClap,
    isPatternOutcome, List.filter]

/-- C8 (amended): configuration is defaulted, not validated, at construction —
for every input the `ClapSwitch` constructor succeeds, the merged options
carry each provided-or-default value unchecked, the pattern state starts at
`(0, no timer)`, and the component runs with whatever was provided: with
`requiredClaps = some 0` any clap immediately completes a pattern. -/
theorem c8_no_validation (o : SwitchOptionsInput) (now : ℚ) :
    mkClapSwitch o =
        (⟨o.requiredClaps.getD 2, o.clapTimeout.getD 1000, o.clapInterval.getD 500,
          o.threshold.getD (3 / 10), o.minDecibels.getD (-45), o.freqLow.getD 2000,
          o.freqHigh.getD 4000⟩, ⟨0, none⟩) ∧
      (o.requiredClaps = some 0 →
        (switchStep (toPatternOptions (mkClapSwitch o).1) (mkClapSwitch o).2
            (SwitchEvent.clapAt now)).2.filter isPatternOutcome = [Outcome.pattern 1]) := by
  refine ⟨rfl, ?_⟩
  intro h0
  simp [mkClapSwitch, mkSwitchOptions, toPatternOptions, switchStep, onClap, handleClap,
    h0, isPatternOutcome, List.filter]

/-- Witness for C8 (amended) at `requiredClaps: 0`, clap at `t = 5`. -/
theorem c8_no_validation_witness :
    mkClapSwitch ⟨some 0, none, none, none, none, none, none⟩ =
        (⟨(some 0).getD 2, none.getD 1000, none.getD 500, none.getD (3 / 10),
          none.getD (-45), none.getD 2000, none.getD 4000⟩, ⟨0, none⟩) ∧
      (switchStep
          (toPatternOptions (mkClapSwitch ⟨some 0, none, none, none, none, none, none⟩).1)
          (mkClapSwitch ⟨some 0, none, none, none, none, none, none⟩).2
          (SwitchEvent.clapAt 5)).2.filter isPatternOutcome = [Outcome.pattern 1] := by
  have h := c8_no_validation ⟨some 0, none, none, none, none, none, none⟩ 5
  exact ⟨h.1, h.2 rfl⟩

/-- C9 counterexample: a `start()` failing on denied microphone access does
not leave the processor exactly as before the call: from the freshly
constructed state, the failed call has created and retained the audio context
(the `catch` block re-emits and rethrows without any cleanup), so the
post-failure state differs from the pre-call state. -/
theorem c9_counterexample :
    procStart false initProcState =
        Except.error ⟨false, true, false, false, false, false⟩ ∧
      (⟨false, true, false, false, false, false⟩ : ProcState) ≠ initProcState := by
  exact ⟨rfl, by decide⟩

/-- C9 (amended): a `start()` that fails with microphone access denied leaves
the processor idle — `_isListening` stays false and no media stream,
microphone node, analyser or analysis tick is acquired; the only change is
that the lazily created audio context is retained (reused on retry) — and a
subsequent `start()` succeeds once access is granted. -/
theorem c9_failed_start (s : ProcState) (h : s.isListening = false) :
    procStart false s = Except.error { s with audioContext := true } ∧
      ∃ s', procStart true { s with audioContext := true } = Except.ok s' ∧
        s'.isListening = true := by
  obtain ⟨l, ac, ms, mic, an, af⟩ := s
  have hl : l = false := h
  subst hl
  refine ⟨?_, ⟨true, true, true, true, true, true⟩, ?_, rfl⟩
  · cases ac <;> rfl
  · rfl

/-- Witness for C9 (amended) from the freshly constructed state. -/
theorem c9_failed_start_witness :
    procStart false initProcState =
        Except.error { initProcState with audioContext := true } ∧
      ∃ s', procStart true { initProcState with audioContext := true } = Except.ok s' ∧
        s'.isListening = true :=
  c9_failed_start initProcState rfl

/-- C1: Pattern completion — starting from count 0 with no deadline, feeding
exactly `required_claps` clap events (at arbitrary times, with no timeout
firing in between) emits exactly one `pattern` outcome, whose payload is
`required_claps`, requests exactly one toggle from the state store, and leaves
the machine at count 0 with no pending deadline. -/
theorem c1_pattern_completion (opts : PatternOptions) (times : List ℚ)
    (hreq : 1 ≤ opts.requiredClaps) (hlen : times.length = opts.requiredClaps) :
    (switchRun opts ⟨0, none⟩ (clapsAt times)).2.filter isPatternOutcome =
        [Outcome.pattern opts.requiredClaps] ∧
      (switchRun opts ⟨0, none⟩ (clapsAt times)).2.filter isToggleOutcome = [Outcome.toggle] ∧
      (switchRun opts ⟨0, none⟩ (clapsAt times)).1 = ⟨0, none⟩ := by
  have hne : times ≠ [] := by
    intro hnil
    rw [hnil] at hlen
    simp at hlen
    omega
  have hsplit : times.dropLast ++ [times.getLast hne] = times :=
    List.dropLast_append_getLast hne
  have hlenl : times.dropLast.length = opts.requiredClaps - 1 := by
    rw [List.length_dropLast, hlen]
  have hpart := switchRun_claps_partial opts times.dropLast 0 none (by omega)
  have hca : clapsAt times = clapsAt times.dropLast ++ [SwitchEvent.clapAt (times.getLast hne)] := by
    conv_lhs => rw [← hsplit]
    simp [clapsAt]
  have hs1 : (switchRun opts ⟨0, none⟩ (clapsAt times.dropLast)).1 =
      ⟨times.dropLast.length, pendingAfter none opts.clapTimeout times.dropLast⟩ := by
    simpa using hpart.1
  have hcount : times.dropLast.length + 1 = opts.requiredClaps := by omega
  have hfin : switchRun opts (switchRun opts ⟨0, none⟩ (clapsAt times.dropLast)).1
      [SwitchEvent.clapAt (times.getLast hne)] =
      (⟨0, none⟩, [Outcome.clap opts.requiredClaps, Outcome.pattern opts.requiredClaps,
        Outcome.toggle]) := by
    rw [hs1]
    simp only [switchRun, switchStep, onClap, handleClap]
    rw [if_pos (by omega)]
    simp [hcount]
    omega
  obtain ⟨hp, ht, _⟩ := filter_of_all_claps _ hpart.2
  rw [hca, switchRun_append, hfin]
  refine ⟨?_, ?_, rfl⟩
  · simp [List.filter_append, hp, isPatternOutcome]
  · simp [List.filter_append, ht, isToggleOutcome]

/-- Witness for C1 at Scenario C of the spec: `requiredClaps = 2`,
`clapTimeout = 1000`, claps at `t = 0` and `t = 400`. -/
theorem c1_pattern_completion_witness :
    (switchRun ⟨2, 1000⟩ ⟨0, none⟩ (clapsAt [0, 400])).2.filter isPatternOutcome =
        [Outcome.pattern 2] ∧
      (switchRun ⟨2, 1000⟩ ⟨0, none⟩ (clapsAt [0, 400])).2.filter isToggleOutcome =
        [Outcome.toggle] ∧
      (switchRun ⟨2, 1000⟩ ⟨0, none⟩ (clapsAt [0, 400])).1 = ⟨0, none⟩ :=
  c1_pattern_completion ⟨2, 1000⟩ [0, 400] (by norm_num) (by simp)

/-- C2: Pattern cancellation — after `k` claps with `0 < k < required_claps`,
the pending deadline sits at `clap_timeout_ms` after the last clap; when it
fires it emits exactly one `pattern-canceled` outcome carrying `k` and resets
the machine to count 0 with no pending deadline, and a later firing emits
nothing further. -/
theorem c2_pattern_cancellation (opts : PatternOptions) (times : List ℚ) (tlast : ℚ)
    (hpos : 0 < times.length) (hlt : times.length < opts.requiredClaps)
    (hlast : times.getLast? = some tlast) :
    (switchRun opts ⟨0, none⟩ (clapsAt times)).1 =
        ⟨times.length, some (tlast + opts.clapTimeout)⟩ ∧
      (switchRun opts ⟨0, none⟩
          (clapsAt times ++ [SwitchEvent.timeoutFire])).2.filter isCanceledOutcome =
        [Outcome.patternCanceled times.length] ∧
      (switchRun opts ⟨0, none⟩ (clapsAt times ++ [SwitchEvent.timeoutFire])).1 = ⟨0, none⟩ ∧
      (switchRun opts ⟨0, none⟩
          (clapsAt times ++ [SwitchEvent.timeoutFire, SwitchEvent.timeoutFire])).2.filter
          isCanceledOutcome = [Outcome.patternCanceled times.length] := by
  have hpart := switchRun_claps_partial opts times 0 none (by omega)
  have hs1 : (switchRun opts ⟨0, none⟩ (clapsAt times)).1 =
      ⟨times.length, some (tlast + opts.clapTimeout)⟩ := by
    rw [hpart.1]
    simp [pendingAfter, hlast]
  have hfire : switchRun opts (switchRun opts ⟨0, none⟩ (clapsAt times)).1
      [SwitchEvent.timeoutFire] =
      (⟨0, none⟩, [Outcome.patternCanceled times.length]) := by
    rw [hs1]
    simp [switchRun, switchStep, onTimeout, hpos]
  obtain ⟨_, _, hcf⟩ := filter_of_all_claps _ hpart.2
  refine ⟨hs1, ?_, ?_, ?_⟩
  · rw [switchRun_append, hfire]
    simp [List.filter_append, hcf, isCanceledOutcome]
  · rw [switchRun_append, hfire]
  · have h2 : ([SwitchEvent.timeoutFire, SwitchEvent.timeoutFire] : List SwitchEvent) =
        [SwitchEvent.timeoutFire] ++ [SwitchEvent.timeoutFire] := rfl
    rw [h2, ← List.append_assoc, switchRun_append, switchRun_append, hfire]
    simp [List.filter_append, hcf, isCanceledOutcome, switchRun, switchStep, onTimeout]

/-- Witness for C2 at Scenario D of the spec: `requiredClaps = 2`,
`clapTimeout = 1000`, one clap at `t = 0`, deadline at `t = 1000`. -/
theorem c2_pattern_cancellation_witness :
    (switchRun ⟨2, 1000⟩ ⟨0, none⟩ (clapsAt [0])).1 = ⟨1, some (0 + 1000)⟩ ∧
      (switchRun ⟨2, 1000⟩ ⟨0, none⟩
          (clapsAt [0] ++ [SwitchEvent.timeoutFire])).2.filter isCanceledOutcome =
        [Outcome.patternCanceled 1] ∧
      (switchRun ⟨2, 1000⟩ ⟨0, none⟩ (clapsAt [0] ++ [SwitchEvent.timeoutFire])).1 =
        ⟨0, none⟩ ∧
      (switchRun ⟨2, 1000⟩ ⟨0, none⟩
          (clapsAt [0] ++ [SwitchEvent.timeoutFire, SwitchEvent.timeoutFire])).2.filter
          isCanceledOutcome = [Outcome.patternCanceled 1] := by
  have h := c2_pattern_cancellation ⟨2, 1000⟩ [0] 0 (by simp) (by simp) (by rfl)
  simpa using h

/-- C7: Pattern state invariant — in every state reachable from the initial
state by claps and timeout firings, a deadline is pending iff
`0 < current_count < required_claps`; a completing clap and a cancellation
both return the machine to count 0 with no pending deadline. -/
theorem c7_state_invariant (opts : PatternOptions) (s : SwitchState)
    (h : SwitchReachable opts s) :
    ((s.clapTimer.isSome = true) ↔ 0 < s.clapCount ∧ s.clapCount < opts.requiredClaps) ∧
      (∀ now, opts.requiredClaps ≤ s.clapCount + 1 →
        (switchStep opts s (SwitchEvent.clapAt now)).1 = ⟨0, none⟩) ∧
      (s.clapTimer.isSome = true → 0 < s.clapCount →
        (switchStep opts s SwitchEvent.timeoutFire).1 = ⟨0, none⟩) := by
  refine ⟨?_, ?_, ?_⟩
  · induction h with
    | init => simp
    | step s' e hs ih =>
        cases e with
        | clapAt now =>
            simp only [switchStep, onClap, handleClap]
            split_ifs with hge
            · simp
            · simp
              omega
        | timeoutFire =>
            simp only [switchStep, onTimeout]
            cases htm : s'.clapTimer with
            | none => simpa [htm] using ih
            | some d => split_ifs with hc <;> simp
  · intro now hge
    simp [switchStep, onClap, handleClap, hge]
  · intro hsome hc
    cases htm : s.clapTimer with
    | none => rw [htm] at hsome; simp at hsome
    | some d => simp [switchStep, onTimeout, htm, hc]

/-- Witness for C7 at the initial state of a default-configured machine. -/
theorem c7_state_invariant_witness :
    ((((⟨0, none⟩ : SwitchState).clapTimer.isSome = true) ↔
        0 < (⟨0, none⟩ : SwitchState).clapCount ∧
          (⟨0, none⟩ : SwitchState).clapCount < (⟨2, 1000⟩ : PatternOptions).requiredClaps)) ∧
      (∀ now, (⟨2, 1000⟩ : PatternOptions).requiredClaps ≤
          (⟨0, none⟩ : SwitchState).clapCount + 1 →
        (switchStep ⟨2, 1000⟩ ⟨0, none⟩ (SwitchEvent.clapAt now)).1 = ⟨0, none⟩) ∧
      ((⟨0, none⟩ : SwitchState).clapTimer.isSome = true →
        0 < (⟨0, none⟩ : SwitchState).clapCount →
        (switchStep ⟨2, 1000⟩ ⟨0, none⟩ SwitchEvent.timeoutFire).1 = ⟨0, none⟩) :=
  c7_state_invariant ⟨2, 1000⟩ ⟨0, none⟩ SwitchReachable.init

end Ovation
